import Mathlib

/-!
Verification of `ccan/net/net.c` (connection racer `net_connect`, dual-stack
binder `net_bind`, listen-socket factory `make_listen_fd`).

The C code is shallowly embedded as pure Lean functions.  System calls
(`socket`, `fcntl`, `connect`, `poll`, `getsockopt`, `bind`, `listen`,
`setsockopt`, `close`) are modelled by an environment of oracles fixing the
outcome of every call; `poll` outcomes are given by a finite script (an empty
remaining script with pending descriptors models a `poll` that blocks
forever, in which case the run produces no outcome).  Machine `unsigned int`
arithmetic is modelled as `Nat` modulo `2^32` where the source relies on it.
Uninitialised stack memory (the `pfd`/`addr`/`slen` arrays before they are
filled) is modelled by junk values supplied by the environment.  Every array
access made by the source is performed at the same index the source uses;
accesses beyond the 2-entry capacity read environment junk, and the indices
used by the `events`-field writes of the candidate-setup loop are recorded in
the run's trace, so out-of-bounds indexing is observable in the model.
-/

namespace Net

/-- Address family of a candidate (`ai_family`): `AF_INET`, `AF_INET6`, other. -/
inductive Family
  | inet
  | inet6
  | other
deriving DecidableEq, Repr

/-- One `struct addrinfo` node, as read by this code: address family, socket
type, protocol, and an opaque identifier plus length for the binary socket
address (`ai_addr` / `ai_addrlen`).  The resolver's linked list is a
`List Addrinfo`; `NULL` is the empty list. -/
structure Addrinfo where
  family : Family
  socktype : Nat
  protocol : Nat
  addr : Nat
  addrlen : Nat
deriving DecidableEq, Repr

/-- Linux `EINPROGRESS` error code, the "connect is pending" errno. -/
def EINPROGRESS : Nat := 115

/-- `SOCK_STREAM` socket type. -/
def SOCK_STREAM : Nat := 1

/-- `SOCK_SEQPACKET` socket type. -/
def SOCK_SEQPACKET : Nat := 5

/-- `2^32`, the modulus of C `unsigned int` arithmetic. -/
def U32 : Nat := 4294967296

/-- `sizeof(struct sockaddr_in6)` on Linux. -/
def sizeof_sockaddr_in6 : Nat := 28

/-- `sizeof(struct sockaddr_in)` on Linux. -/
def sizeof_sockaddr_in : Nat := 16

/-- Oracle environment for one `net_connect` run: outcomes of every system
call, and the junk contents of uninitialised stack memory.
`socketRes f = none` means `socket(f, ...)` fails (with errno
`socketErrno f`); `connectRes fd = none` means `connect` on `fd` returns `0`
immediately, `some e` means it returns `-1` with errno `e` (`e = EINPROGRESS`
is the pending case).  `nbTrue fd` / `nbFalse fd` are the results of
`set_nonblock(fd, true)` / `set_nonblock(fd, false)`.  `junkFd`, `junkAddr`,
`junkSlen` are the uninitialised contents of the local `pfd[].fd`, `addr[]`
and `slen[]` arrays; `oobFd` is the value obtained by reading `pfd[i].fd`
past the end of the 2-entry array. -/
structure Env where
  junkFd : Fin 2 → Int
  junkAddr : Fin 2 → Addrinfo
  junkSlen : Fin 2 → Nat
  oobFd : Int
  errno0 : Nat
  socketRes : Family → Option Nat
  socketErrno : Family → Nat
  nbTrue : Int → Bool
  nbTrueErrno : Int → Nat
  connectRes : Int → Option Nat
  nbFalse : Int → Bool
  nbFalseErrno : Int → Nat

/-- Result of one `getsockopt(fd, SOL_SOCKET, SO_ERROR, ...)` call: the
syscall itself fails with errno `e`, or succeeds reporting pending error
`err` (`err = 0` means the connect succeeded). -/
inductive GsRes
  | fail (e : Nat)
  | ok (err : Nat)

/-- One scripted outcome of a `poll(pfd, num, -1)` call: the syscall fails
with errno `e`, or returns with `revs fd` telling whether the slot holding
descriptor `fd` has a nonzero `revents`, and `gs fd` the outcome of the
subsequent `getsockopt` on `fd`. -/
inductive PollStep
  | fail (e : Nat)
  | ready (revs : Int → Bool) (gs : Int → GsRes)

/-- The local state of a `net_connect` invocation: the three parallel
2-entry arrays, the live-entry count `num`, the loop index `i` (a C
`unsigned int`), the ambient `errno`, and the observable trace of the run
(descriptors created, socket/connect calls made, indices used by the
`pfd[i].events` writes of the setup loop together with the live count at the
moment of the write, and the number of `poll` invocations). -/
structure CState where
  pfdFd : Fin 2 → Int
  addr : Fin 2 → Addrinfo
  slen : Fin 2 → Nat
  num : Nat
  i : Nat
  errno : Nat
  created : List Int
  socketCalls : List (Family × Nat × Nat)
  connectCalls : List (Int × Addrinfo × Nat)
  eventsWrites : List (Nat × Nat)
  pollCalls : Nat

/-- The observable outcome of a terminating `net_connect` run. -/
structure ConnOutcome where
  sockfd : Int
  errno : Nat
  created : List Int
  closed : List Int
  socketCalls : List (Family × Nat × Nat)
  connectCalls : List (Int × Addrinfo × Nat)
  eventsWrites : List (Nat × Nat)
  pollCalls : Nat
deriving DecidableEq, Repr

/-- One `memmove(a + i, a + i + 1, (num - i - 1) * sizeof(a[0]))` over a
2-entry array: entries `i .. num-2` receive the value of their successor,
everything else (including the now-stale trailing entry) is unchanged. -/
def shiftDown {α : Type} (a : Fin 2 → α) (num i : Nat) : Fin 2 → α :=
  fun j =>
    if h : i ≤ (j : Nat) ∧ (j : Nat) + 1 < num ∧ (j : Nat) + 1 < 2 then
      a ⟨(j : Nat) + 1, h.2.2⟩
    else a j

/-- `remove_fd(pfd, addr, slen, &num, i)` from net.c: shift the three
parallel arrays down over index `i` and decrement `num`.  Note that the C
function does *not* `close` the descriptor being dropped. -/
def remove_fd (s : CState) (i : Nat) : CState :=
  { s with
    pfdFd := shiftDown s.pfdFd s.num i
    addr := shiftDown s.addr s.num i
    slen := shiftDown s.slen s.num i
    num := s.num - 1 }

/-- The candidate-scan loop of `net_connect` (lines 75-86): the first
list entry of the given family, if any. -/
def firstFam (fam : Family) : List Addrinfo → Option Addrinfo
  | [] => none
  | a :: rest => if a.family = fam then some a else firstFam fam rest

/-- State at function entry: arrays uninitialised (environment junk),
`num = 0`, empty trace, ambient errno. -/
def initState (env : Env) : CState :=
  { pfdFd := env.junkFd
    addr := env.junkAddr
    slen := env.junkSlen
    num := 0
    i := 0
    errno := env.errno0
    created := []
    socketCalls := []
    connectCalls := []
    eventsWrites := []
    pollCalls := 0 }

/-- One candidate block of lines 90-105: `addr[num] = a; slen[num] = sl;
pfd[num].fd = socket(fam, a->ai_socktype, a->ai_protocol); if != -1 num++`.
On socket failure the slot's `fd` field still receives the `-1` the call
returned. -/
def addCandidate (env : Env) (s : CState) (fam : Family) (a : Addrinfo)
    (sl : Nat) : CState :=
  if h : s.num < 2 then
    let s := { s with
      addr := Function.update s.addr ⟨s.num, h⟩ a
      slen := Function.update s.slen ⟨s.num, h⟩ sl
      socketCalls := s.socketCalls ++ [(fam, a.socktype, a.protocol)] }
    match env.socketRes fam with
    | some fd =>
        { s with
          pfdFd := Function.update s.pfdFd ⟨s.num, h⟩ (fd : Int)
          created := s.created ++ [(fd : Int)]
          num := s.num + 1 }
    | none =>
        { s with
          pfdFd := Function.update s.pfdFd ⟨s.num, h⟩ (-1)
          errno := env.socketErrno fam }
  else s

/-- Lines 75-105 of `net_connect`: scan for the first IPv6 and first IPv4
candidates, then create the IPv6 socket first, the IPv4 one second. -/
def preparedState (env : Env) (l : List Addrinfo) : CState :=
  let s := initState env
  let s :=
    match firstFam .inet6 l with
    | some a => addCandidate env s .inet6 a sizeof_sockaddr_in6
    | none => s
  match firstFam .inet l with
  | some a => addCandidate env s .inet a sizeof_sockaddr_in
  | none => s

/-- How the candidate-setup loop (lines 107-120) ends: a `goto got_one`
carrying the winning descriptor, or normal loop exit. -/
inductive SetupExit
  | win (fd : Int) (s : CState)
  | done (s : CState)

/-- The candidate-setup loop, lines 107-120.  The `gas` parameter equals
`num - i`, the number of remaining iterations: every iteration either
increments `i` or decrements `num` (the `remove_fd(..., i--)` pattern leaves
`i` unchanged after the loop's `i++`), so the loop runs exactly `num - i`
more times unless it exits by `goto`.  In the branch for a connect error
other than `EINPROGRESS`, the source falls through to
`pfd[i].events = POLLOUT` with the already-decremented unsigned `i`; the
index used (modulo `2^32`) and the live count at that moment are recorded in
`eventsWrites`. -/
def setupLoop (env : Env) : Nat → CState → SetupExit
  | 0, s => .done s
  | gas + 1, s =>
    if h : s.i < 2 then
      let fd := s.pfdFd ⟨s.i, h⟩
      if env.nbTrue fd then
        let a := s.addr ⟨s.i, h⟩
        let sl := s.slen ⟨s.i, h⟩
        let s1 := { s with connectCalls := s.connectCalls ++ [(fd, a, sl)] }
        match env.connectRes fd with
        | none => .win fd s1
        | some e =>
          if e = EINPROGRESS then
            let s2 := { s1 with
              errno := e
              eventsWrites := s1.eventsWrites ++ [(s1.i, s1.num)] }
            setupLoop env gas { s2 with i := s2.i + 1 }
          else
            let s2 := remove_fd { s1 with errno := e } s1.i
            let wrapped := (s2.i + (U32 - 1)) % U32
            setupLoop env gas
              { s2 with eventsWrites := s2.eventsWrites ++ [(wrapped, s2.num)] }
      else
        setupLoop env gas (remove_fd { s with errno := env.nbTrueErrno fd } s.i)
    else .done s

/-- How one pass of the inner `for` loop of the poll phase (lines 123-137)
ends: a winner, a `goto out` after a failed `getsockopt`, or normal
completion of the pass. -/
inductive InnerExit
  | win (fd : Int) (s : CState)
  | abortOut (s : CState)
  | cont (s : CState)

/-- The inner `for` loop of the poll phase, lines 123-137, for one `poll`
wakeup described by `revs`/`gs`.  As in `setupLoop`, `gas = num - i`. -/
def pollInner (revs : Int → Bool) (gs : Int → GsRes) :
    Nat → CState → InnerExit
  | 0, s => .cont s
  | gas + 1, s =>
    if h : s.i < 2 then
      let fd := s.pfdFd ⟨s.i, h⟩
      if revs fd then
        match gs fd with
        | .fail e => .abortOut { s with errno := e }
        | .ok err =>
          if err = 0 then .win fd s
          else pollInner revs gs gas (remove_fd { s with errno := err } s.i)
      else pollInner revs gs gas { s with i := s.i + 1 }
    else .cont s

/-- How the `while (num && poll(...) != -1)` loop (lines 122-138) ends:
a winner, a `goto out`, normal exit of the `while` (at which point control
falls through into the `got_one:` label with `i == num`), or a run in which
`poll` blocks forever (no further scripted wakeup). -/
inductive PollExit
  | win (fd : Int) (s : CState)
  | abortOut (s : CState)
  | fellThrough (s : CState)
  | hang (s : CState)

/-- The `while (num && poll(pfd, num, -1) != -1)` loop, lines 122-138.
`num` is tested before `poll` is invoked; each `poll` invocation consumes
one script entry and the inner `for` loop restarts at `i = 0`. -/
def pollLoop (script : List PollStep) (s : CState) : PollExit :=
  if s.num = 0 then .fellThrough s
  else
    match script with
    | [] => .hang s
    | step :: rest =>
      let s1 := { s with pollCalls := s.pollCalls + 1 }
      match step with
      | .fail e => .fellThrough { s1 with errno := e }
      | .ready revs gs =>
        match pollInner revs gs s1.num { s1 with i := 0 } with
        | .win fd s2 => .win fd s2
        | .abortOut s2 => .abortOut s2
        | .cont s2 => pollLoop rest s2

/-- The descriptors currently stored in the live entries `pfd[0..num)`. -/
def livePfds (s : CState) : List Int :=
  (List.range s.num).filterMap fun j =>
    if h : j < 2 then some (s.pfdFd ⟨j, h⟩) else none

/-- The `out:` epilogue (lines 145-151): close every live descriptor other
than `sockfd`, preserve `errno` across the closes, and return `sockfd`. -/
def finishOut (sockfd : Int) (s : CState) : ConnOutcome :=
  { sockfd := sockfd
    errno := s.errno
    created := s.created
    closed := (livePfds s).filter fun fd => fd ≠ sockfd
    socketCalls := s.socketCalls
    connectCalls := s.connectCalls
    eventsWrites := s.eventsWrites
    pollCalls := s.pollCalls }

/-- The `got_one:` block (lines 140-143) applied to descriptor `fd`:
restore blocking mode; only on success does `sockfd` become `fd`. -/
def finishGotOne (env : Env) (fd : Int) (s : CState) : ConnOutcome :=
  if env.nbFalse fd then finishOut fd s
  else finishOut (-1) { s with errno := env.nbFalseErrno fd }

/-- The `pfd[i].fd` read performed at `got_one:`: within the 2-entry array
it yields the (possibly stale or uninitialised) stored value, past the end
it yields the environment's out-of-bounds junk. -/
def pfdAt (env : Env) (s : CState) (i : Nat) : Int :=
  if h : i < 2 then s.pfdFd ⟨i, h⟩ else env.oobFd

/-- The race portion of `net_connect`: candidate setup loop, then the poll
loop.  A `.win` is a `goto got_one` with a genuine winner; `.fellThrough`
is normal exit of the `while` loop, after which the source text falls
through into `got_one:` with `i == num`. -/
def raceExit (env : Env) (script : List PollStep) (l : List Addrinfo) :
    PollExit :=
  match setupLoop env (preparedState env l).num (preparedState env l) with
  | .win fd s => .win fd s
  | .done s => pollLoop script s

/-- `net_connect` from net.c, lines 66-152.  `none` means the run never
returns (a `poll` blocked forever).  On `.fellThrough` the source falls
through into `got_one:` and operates on `pfd[i].fd` with `i == num`. -/
def net_connect (env : Env) (script : List PollStep) (l : List Addrinfo) :
    Option ConnOutcome :=
  match raceExit env script l with
  | .win fd s => some (finishGotOne env fd s)
  | .abortOut s => some (finishOut (-1) s)
  | .fellThrough s => some (finishGotOne env (pfdAt env s s.i) s)
  | .hang _ => none

/-- Oracle environment for `net_bind` / `make_listen_fd`: outcomes of
`socket` (keyed by the candidate passed), and of `setsockopt`, `bind` and
`listen` (keyed by the descriptor). -/
structure BEnv where
  socketRes : Addrinfo → Option Nat
  socketErrno : Addrinfo → Nat
  setsockoptRes : Nat → Bool
  setsockoptErrno : Nat → Nat
  bindRes : Nat → Bool
  bindErrno : Nat → Nat
  listenRes : Nat → Bool
  listenErrno : Nat → Nat

/-- The observable outcome of one `make_listen_fd` call: return value
(`-1` or the descriptor), resulting ambient errno, and traces of the
descriptors created and closed and of the syscalls issued. -/
structure LOutcome where
  ret : Int
  errno : Nat
  created : List Nat
  closed : List Nat
  setsockoptCalls : List Nat
  bindCalls : List Nat
  listenCalls : List Nat
deriving DecidableEq, Repr

/-- `should_listen` from net.c, lines 172-179: listen only for
connection-oriented socket types. -/
def should_listen (a : Addrinfo) : Bool :=
  if a.socktype = SOCK_SEQPACKET then true else a.socktype = SOCK_STREAM

/-- `make_listen_fd` from net.c, lines 181-203, run with ambient errno
`errno0`.  The source calls `setsockopt(fd, SOL_SOCKET, SO_REUSEADDR, ...)`
without checking its result: a failing option set only changes the ambient
errno and execution continues with `bind`.  The `fail:` label closes the
descriptor and restores the errno of the step that failed. -/
def make_listen_fd (env : BEnv) (errno0 : Nat) (a : Addrinfo) : LOutcome :=
  match env.socketRes a with
  | none =>
    { ret := -1, errno := env.socketErrno a, created := [], closed := []
      setsockoptCalls := [], bindCalls := [], listenCalls := [] }
  | some fd =>
    let e1 := if env.setsockoptRes fd then errno0 else env.setsockoptErrno fd
    if env.bindRes fd then
      if should_listen a then
        if env.listenRes fd then
          { ret := (fd : Int), errno := e1, created := [fd], closed := []
            setsockoptCalls := [fd], bindCalls := [fd], listenCalls := [fd] }
        else
          { ret := -1, errno := env.listenErrno fd, created := [fd]
            closed := [fd], setsockoptCalls := [fd], bindCalls := [fd]
            listenCalls := [fd] }
      else
        { ret := (fd : Int), errno := e1, created := [fd], closed := []
          setsockoptCalls := [fd], bindCalls := [fd], listenCalls := [] }
    else
      { ret := -1, errno := env.bindErrno fd, created := [fd], closed := [fd]
        setsockoptCalls := [fd], bindCalls := [fd], listenCalls := [] }

/-- One classification step of `net_bind` (lines 211-221): an `AF_INET`
entry claims the IPv4 slot, an `AF_INET6` entry the IPv6 slot, anything
else is ignored.  The pair is `(ipv6 slot, ipv4 slot)`. -/
def classifyStep (p : Option Addrinfo × Option Addrinfo) (a : Addrinfo) :
    Option Addrinfo × Option Addrinfo :=
  if a.family = .inet then (p.1, some a)
  else if a.family = .inet6 then (some a, p.2)
  else p

/-- The full classification of `net_bind`: the first entry, then (when the
list has a successor) the second entry, later entries never inspected. -/
def classify2 (a : Addrinfo) (next : Option Addrinfo) :
    Option Addrinfo × Option Addrinfo :=
  match next with
  | none => classifyStep (none, none) a
  | some b => classifyStep (classifyStep (none, none) a) b

/-- The observable outcome of a `net_bind` run: the return value, the
descriptors stored in `fds[0..num)`, the candidates passed to
`make_listen_fd` in call order, final errno, and aggregate created/closed
traces. -/
structure BOutcome where
  ret : Int
  fds : List Int
  factoryCalls : List Addrinfo
  errno : Nat
  created : List Nat
  closed : List Nat
deriving DecidableEq, Repr

/-- Attempt one family slot of `net_bind` (lines 225-236): if the slot is
occupied, call `make_listen_fd`; a nonnegative return is stored in
`fds[num]` and counted, a failure leaves the count alone. -/
def bindSlot (env : BEnv) (slot : Option Addrinfo) (st : BOutcome) :
    BOutcome :=
  match slot with
  | none => st
  | some a =>
    let r := make_listen_fd env st.errno a
    { st with
      factoryCalls := st.factoryCalls ++ [a]
      errno := r.errno
      created := st.created ++ r.created
      closed := st.closed ++ r.closed
      fds := if 0 ≤ r.ret then st.fds ++ [r.ret] else st.fds }

/-- `net_bind` from net.c, lines 205-241.  The first statement of the
source dereferences `addrinfo` with no `NULL` check, so the empty list
(a `NULL` pointer) yields `none`, modelling that undefined dereference;
for a nonempty list the result is always produced.  The IPv6 slot is
attempted before the IPv4 slot; `-1` is returned exactly when no descriptor
was produced, otherwise the count is returned. -/
def net_bind (env : BEnv) (errno0 : Nat) (l : List Addrinfo) :
    Option BOutcome :=
  match l with
  | [] => none
  | a :: rest =>
    let cls := classify2 a rest.head?
    let st0 : BOutcome :=
      { ret := 0, fds := [], factoryCalls := [], errno := errno0
        created := [], closed := [] }
    let st1 := bindSlot env cls.1 st0
    let st2 := bindSlot env cls.2 st1
    some { st2 with
      ret := if st2.fds.length = 0 then -1 else (st2.fds.length : Int) }

/-! ### Concrete fixtures used by counterexamples and witnesses -/

/-- A sample IPv4 TCP stream candidate. -/
def cand4 : Addrinfo :=
  { family := .inet, socktype := 1, protocol := 6, addr := 40, addrlen := 16 }

/-- A sample IPv6 TCP stream candidate. -/
def cand6 : Addrinfo :=
  { family := .inet6, socktype := 1, protocol := 6, addr := 60, addrlen := 28 }

/-- A sample candidate of a family that is neither IPv4 nor IPv6. -/
def candO : Addrinfo :=
  { family := .other, socktype := 1, protocol := 0, addr := 70, addrlen := 12 }

/-- A benign base environment: `socket` yields descriptor 3 for IPv4 and 5
for IPv6, both `fcntl` mode switches succeed, every connect goes
`EINPROGRESS`, and the uninitialised array slots hold the junk values
90 and 91. -/
def baseEnv : Env :=
  { junkFd := fun j => 90 + (j : Int)
    junkAddr := fun _ => candO
    junkSlen := fun _ => 0
    oobFd := 99
    errno0 := 0
    socketRes := fun f =>
      match f with
      | .inet => some 3
      | .inet6 => some 5
      | .other => none
    socketErrno := fun _ => 97
    nbTrue := fun _ => true
    nbTrueErrno := fun _ => 9
    connectRes := fun _ => some EINPROGRESS
    nbFalse := fun _ => true
    nbFalseErrno := fun _ => 9 }

/-- C1 scenario: IPv6 connect refused immediately (errno 111), IPv4
connect succeeds synchronously. -/
def envC1 : Env :=
  { baseEnv with
    connectRes := fun fd => if fd = 5 then some 111 else none }

/-- C2 scenario: the lone IPv4 connect goes `EINPROGRESS` and the first
`poll` call fails (errno 4, `EINTR`). -/
def envC2 : Env := baseEnv

/-- C3/C1 single-candidate scenario: the lone IPv4 connect is refused
immediately (errno 111). -/
def envC3 : Env :=
  { baseEnv with connectRes := fun _ => some 111 }

/-- C4 scenario: empty candidate list; the junk in `pfd[0].fd` happens to
be descriptor 90 and `fcntl` on it succeeds. -/
def envC4 : Env := baseEnv

/-- C6/C9 scenario: the lone IPv4 connect succeeds synchronously. -/
def envW : Env :=
  { baseEnv with connectRes := fun _ => none }

/-- C9 witness scenario: synchronous connect success, but switching the
winner back to blocking mode fails. -/
def envW9 : Env :=
  { baseEnv with
    connectRes := fun _ => none
    nbFalse := fun _ => false }

/-- A benign binder environment: `socket` yields 3 for IPv4 candidates and
5 for IPv6 ones, and every subsequent step succeeds. -/
def benvBase : BEnv :=
  { socketRes := fun a =>
      match a.family with
      | .inet => some 3
      | .inet6 => some 5
      | .other => some 7
    socketErrno := fun _ => 97
    setsockoptRes := fun _ => true
    setsockoptErrno := fun _ => 22
    bindRes := fun _ => true
    bindErrno := fun _ => 98
    listenRes := fun _ => true
    listenErrno := fun _ => 95 }

/-- C5 counterexample environment: `setsockopt(SO_REUSEADDR)` fails
(errno 22) but everything else succeeds. -/
def benvC5 : BEnv :=
  { benvBase with setsockoptRes := fun _ => false }

/-- C5 witness environment: `bind` fails with errno 98
(`EADDRINUSE`). -/
def benvW5 : BEnv :=
  { benvBase with bindRes := fun _ => false }

/-- C8 witness environment: the IPv6 `bind` (descriptor 5) fails, the IPv4
one succeeds — the dual-stack "IPv6 claimed the port" scenario. -/
def benvW8 : BEnv :=
  { benvBase with bindRes := fun fd => fd ≠ 5 }

/-- The outcome of `net_bind benvW8 0 [cand6, cand4]` (IPv6 bind fails,
IPv4 succeeds), used by the C8 witness. -/
def outW8 : BOutcome :=
  { ret := 1, fds := [3], factoryCalls := [cand6, cand4], errno := 98
    created := [5, 3], closed := [5] }

/-- Target candidates of the recorded connect calls, in call order. -/
def connTargets (cs : List (Int × Addrinfo × Nat)) : List Addrinfo :=
  cs.map fun c => c.2.1

/-- The candidates held in slots `i .. num-1` of a capacity-2 candidate
array `ad` with `num` live entries, in slot order. -/
def slotsOf (i num : Nat) (ad : Fin 2 → Addrinfo) : List Addrinfo :=
  (List.range 2).filterMap fun j =>
    if h : j < 2 then
      if i ≤ j ∧ j < num then some (ad ⟨j, h⟩) else none
    else none

/-- The candidates held in the live slots `i .. num-1` of a racer state,
in slot order. -/
def slotsFrom (s : CState) : List Addrinfo := slotsOf s.i s.num s.addr

/-- The at-most-two candidates the racer may attempt, per the spec's
selection rule: the first IPv6 occurrence, then the first IPv4
occurrence. -/
def racerCandidatesSpec (l : List Addrinfo) : List Addrinfo :=
  (firstFam .inet6 l).toList ++ (firstFam .inet l).toList

/-- The socket-creation calls the racer makes, per the spec's rule: the
IPv6 candidate's socket first, then the IPv4 candidate's. -/
def racerSocketOrderSpec (l : List Addrinfo) : List (Family × Nat × Nat) :=
  ((firstFam .inet6 l).toList.map fun a =>
    (Family.inet6, a.socktype, a.protocol)) ++
  ((firstFam .inet l).toList.map fun a =>
    (Family.inet, a.socktype, a.protocol))

/-- Invariant of racer states: at most two live entries, and every live
`pfd` slot holds a nonnegative descriptor (one returned by `socket`). -/
def goodState (s : CState) : Prop :=
  s.num ≤ 2 ∧ ∀ j : Fin 2, (j : Nat) < s.num → 0 ≤ s.pfdFd j

/-- The outcome of `net_connect envW [] [cand4]` (synchronous connect
success), used by the C7 witness. -/
def outW7 : ConnOutcome :=
  { sockfd := 3, errno := 0, created := [3], closed := []
    socketCalls := [(Family.inet, 1, 6)]
    connectCalls := [(3, cand4, 16)]
    eventsWrites := [], pollCalls := 0 }

/-! ### Theorems about the claims -/

/-- `remove_fd` preserves the racer-state invariant. -/
theorem remove_fd_good (s : CState) (i : Nat) (hg : goodState s) :
    goodState (remove_fd s i) := by
  obtain ⟨hn, hl⟩ := hg
  refine ⟨by simp [remove_fd]; omega, fun j hj => ?_⟩
  simp only [remove_fd, shiftDown] at hj ⊢
  split
  · next h => exact hl ⟨(j : Nat) + 1, h.2.2⟩ (by omega)
  · exact hl j (by omega)

/-- The candidate-setup loop never touches the `pollCalls`, `socketCalls`
and `created` traces. -/
theorem setupLoop_trace (env : Env) : ∀ (gas : Nat) (s : CState),
    (∀ fd s', setupLoop env gas s = .win fd s' →
      s'.pollCalls = s.pollCalls ∧ s'.socketCalls = s.socketCalls ∧
      s'.created = s.created) ∧
    (∀ s', setupLoop env gas s = .done s' →
      s'.pollCalls = s.pollCalls ∧ s'.socketCalls = s.socketCalls ∧
      s'.created = s.created) := by
  intro gas
  induction gas with
  | zero =>
    intro s
    refine ⟨fun fd s' h => ?_, fun s' h => ?_⟩
    · simp [setupLoop] at h
    · simp only [setupLoop] at h
      injection h with h
      subst h
      exact ⟨rfl, rfl, rfl⟩
  | succ gas ih =>
    intro s
    constructor
    · intro fd s' h
      simp only [setupLoop] at h
      split at h
      · split at h
        · split at h
          · injection h with h1 h2
            subst h2
            exact ⟨rfl, rfl, rfl⟩
          · split at h
            · have hh := (ih _).1 fd s' h
              exact hh
            · have hh := (ih _).1 fd s' h
              exact hh
        · have hh := (ih _).1 fd s' h
          exact hh
      · simp at h
    · intro s' h
      simp only [setupLoop] at h
      split at h
      · split at h
        · split at h
          · simp at h
          · split at h
            · have hh := (ih _).2 s' h
              exact hh
            · have hh := (ih _).2 s' h
              exact hh
        · have hh := (ih _).2 s' h
          exact hh
      · injection h with h
        subst h
        exact ⟨rfl, rfl, rfl⟩

/-- One pass of the poll phase's inner loop never touches the
`socketCalls`, `created`, `connectCalls` and `pollCalls` traces. -/
theorem pollInner_trace (revs : Int → Bool) (gs : Int → GsRes) :
    ∀ (gas : Nat) (s : CState),
    (∀ fd s', pollInner revs gs gas s = .win fd s' →
      s'.socketCalls = s.socketCalls ∧ s'.created = s.created ∧
      s'.connectCalls = s.connectCalls ∧ s'.pollCalls = s.pollCalls) ∧
    (∀ s', pollInner revs gs gas s = .abortOut s' →
      s'.socketCalls = s.socketCalls ∧ s'.created = s.created ∧
      s'.connectCalls = s.connectCalls ∧ s'.pollCalls = s.pollCalls) ∧
    (∀ s', pollInner revs gs gas s = .cont s' →
      s'.socketCalls = s.socketCalls ∧ s'.created = s.created ∧
      s'.connectCalls = s.connectCalls ∧ s'.pollCalls = s.pollCalls) := by
  intro gas
  induction gas with
  | zero =>
    intro s
    refine ⟨fun fd s' h => ?_, fun s' h => ?_, fun s' h => ?_⟩
    · simp [pollInner] at h
    · simp [pollInner] at h
    · simp only [pollInner] at h
      injection h with h
      subst h
      exact ⟨rfl, rfl, rfl, rfl⟩
  | succ gas ih =>
    intro s
    refine ⟨fun fd s' h => ?_, fun s' h => ?_, fun s' h => ?_⟩
    · simp only [pollInner] at h
      split at h
      · split at h
        · split at h
          · simp at h
          · split at h
            · injection h with h1 h2
              subst h2
              exact ⟨rfl, rfl, rfl, rfl⟩
            · have hh := (ih _).1 fd s' h
              exact hh
        · have hh := (ih _).1 fd s' h
          exact hh
      · simp at h
    · simp only [pollInner] at h
      split at h
      · split at h
        · split at h
          · injection h with h
            subst h
            exact ⟨rfl, rfl, rfl, rfl⟩
          · split at h
            · simp at h
            · have hh := (ih _).2.1 s' h
              exact hh
        · have hh := (ih _).2.1 s' h
          exact hh
      · simp at h
    · simp only [pollInner] at h
      split at h
      · split at h
        · split at h
          · simp at h
          · split at h
            · simp at h
            · have hh := (ih _).2.2 s' h
              exact hh
        · have hh := (ih _).2.2 s' h
          exact hh
      · injection h with h
        subst h
        exact ⟨rfl, rfl, rfl, rfl⟩

/-- The poll loop never touches the `socketCalls`, `created` and
`connectCalls` traces (only `pollCalls` and the arrays change). -/
theorem pollLoop_trace :
    ∀ (script : List PollStep) (s : CState),
    (∀ fd s', pollLoop script s = .win fd s' →
      s'.socketCalls = s.socketCalls ∧ s'.created = s.created ∧
      s'.connectCalls = s.connectCalls) ∧
    (∀ s', pollLoop script s = .abortOut s' →
      s'.socketCalls = s.socketCalls ∧ s'.created = s.created ∧
      s'.connectCalls = s.connectCalls) ∧
    (∀ s', pollLoop script s = .fellThrough s' →
      s'.socketCalls = s.socketCalls ∧ s'.created = s.created ∧
      s'.connectCalls = s.connectCalls) := by
  intro script
  induction script with
  | nil =>
    intro s
    refine ⟨fun fd s' h => ?_, fun s' h => ?_, fun s' h => ?_⟩ <;>
      simp only [pollLoop] at h <;> split at h
    · simp at h
    · simp at h
    · simp at h
    · simp at h
    · injection h with h
      subst h
      exact ⟨rfl, rfl, rfl⟩
    · simp at h
  | cons step rest ih =>
    intro s
    refine ⟨fun fd s' h => ?_, fun s' h => ?_, fun s' h => ?_⟩
    · simp only [pollLoop] at h
      split at h
      · simp at h
      · split at h
        · simp at h
        · split at h
          · next s2 heq =>
            injection h with h1 h2
            subst h2
            have hh := (pollInner_trace _ _ _ _).1 _ _ heq
            exact ⟨hh.1, hh.2.1, hh.2.2.1⟩
          · simp at h
          · next s2 heq =>
            have h1 := (ih _).1 fd s' h
            have h2 := (pollInner_trace _ _ _ _).2.2 _ heq
            exact ⟨h1.1.trans h2.1, h1.2.1.trans h2.2.1, h1.2.2.trans h2.2.2.1⟩
    · simp only [pollLoop] at h
      split at h
      · simp at h
      · split at h
        · simp at h
        · split at h
          · simp at h
          · next s2 heq =>
            injection h with h1
            subst h1
            have hh := (pollInner_trace _ _ _ _).2.1 _ heq
            exact ⟨hh.1, hh.2.1, hh.2.2.1⟩
          · next s2 heq =>
            have h1 := (ih _).2.1 s' h
            have h2 := (pollInner_trace _ _ _ _).2.2 _ heq
            exact ⟨h1.1.trans h2.1, h1.2.1.trans h2.2.1, h1.2.2.trans h2.2.2.1⟩
    · simp only [pollLoop] at h
      split at h
      · injection h with h
        subst h
        exact ⟨rfl, rfl, rfl⟩
      · split at h
        · injection h with h
          subst h
          exact ⟨rfl, rfl, rfl⟩
        · split at h
          · simp at h
          · simp at h
          · next s2 heq =>
            have h1 := (ih _).2.2 s' h
            have h2 := (pollInner_trace _ _ _ _).2.2 _ heq
            exact ⟨h1.1.trans h2.1, h1.2.1.trans h2.2.1, h1.2.2.trans h2.2.2.1⟩

/-- Entered with `gas + i ≤ num` on a good state, the setup loop's
`goto got_one` exit carries a nonnegative winner stored in a live slot of
a still-good state, and its normal exit keeps the state good. -/
theorem setupLoop_good (env : Env) : ∀ (gas : Nat) (s : CState),
    gas + s.i ≤ s.num → goodState s →
    (∀ fd s', setupLoop env gas s = .win fd s' →
      goodState s' ∧ 0 ≤ fd ∧
      ∃ j : Fin 2, (j : Nat) < s'.num ∧ s'.pfdFd j = fd) ∧
    (∀ s', setupLoop env gas s = .done s' → goodState s') := by
  intro gas
  induction gas with
  | zero =>
    intro s hle hg
    refine ⟨fun fd s' h => ?_, fun s' h => ?_⟩
    · simp [setupLoop] at h
    · simp only [setupLoop] at h
      injection h with h
      subst h
      exact hg
  | succ gas ih =>
    intro s hle hg
    refine ⟨fun fd s' h => ?_, fun s' h => ?_⟩
    · simp only [setupLoop] at h
      split at h
      · next hi =>
        split at h
        · split at h
          · injection h with h1 h2
            subst h1
            subst h2
            refine ⟨hg, hg.2 ⟨s.i, hi⟩ (by simp; omega), ⟨s.i, hi⟩,
              by simp; omega, rfl⟩
          · split at h
            · have hh := (ih _ ?_ ?_).1 fd s' h
              · exact hh
              · simp
                omega
              · exact hg
            · have hh := (ih _ ?_ ?_).1 fd s' h
              · exact hh
              · simp [remove_fd]
                omega
              · exact remove_fd_good _ _ hg
        · have hh := (ih _ ?_ ?_).1 fd s' h
          · exact hh
          · simp [remove_fd]
            omega
          · exact remove_fd_good _ _ hg
      · simp at h
    · simp only [setupLoop] at h
      split at h
      · next hi =>
        split at h
        · split at h
          · simp at h
          · split at h
            · have hh := (ih _ ?_ ?_).2 s' h
              · exact hh
              · simp
                omega
              · exact hg
            · have hh := (ih _ ?_ ?_).2 s' h
              · exact hh
              · simp [remove_fd]
                omega
              · exact remove_fd_good _ _ hg
        · have hh := (ih _ ?_ ?_).2 s' h
          · exact hh
          · simp [remove_fd]
            omega
          · exact remove_fd_good _ _ hg
      · injection h with h
        subst h
        exact hg

/-- Entered with `gas + i ≤ num` on a good state, the inner poll-phase
loop's winner is nonnegative and stored in a live slot of a still-good
state, and its normal completion keeps the state good. -/
theorem pollInner_good (revs : Int → Bool) (gs : Int → GsRes) :
    ∀ (gas : Nat) (s : CState), gas + s.i ≤ s.num → goodState s →
    (∀ fd s', pollInner revs gs gas s = .win fd s' →
      goodState s' ∧ 0 ≤ fd ∧
      ∃ j : Fin 2, (j : Nat) < s'.num ∧ s'.pfdFd j = fd) ∧
    (∀ s', pollInner revs gs gas s = .cont s' → goodState s') := by
  intro gas
  induction gas with
  | zero =>
    intro s hle hg
    refine ⟨fun fd s' h => ?_, fun s' h => ?_⟩
    · simp [pollInner] at h
    · simp only [pollInner] at h
      injection h with h
      subst h
      exact hg
  | succ gas ih =>
    intro s hle hg
    refine ⟨fun fd s' h => ?_, fun s' h => ?_⟩
    · simp only [pollInner] at h
      split at h
      · next hi =>
        split at h
        · split at h
          · simp at h
          · split at h
            · injection h with h1 h2
              subst h1
              subst h2
              refine ⟨hg, hg.2 ⟨s.i, hi⟩ (by simp; omega), ⟨s.i, hi⟩,
                by simp; omega, rfl⟩
            · have hh := (ih _ ?_ ?_).1 fd s' h
              · exact hh
              · simp [remove_fd]
                omega
              · exact remove_fd_good _ _ hg
        · have hh := (ih _ ?_ ?_).1 fd s' h
          · exact hh
          · simp
            omega
          · exact hg
      · simp at h
    · simp only [pollInner] at h
      split at h
      · next hi =>
        split at h
        · split at h
          · simp at h
          · split at h
            · simp at h
            · have hh := (ih _ ?_ ?_).2 s' h
              · exact hh
              · simp [remove_fd]
                omega
              · exact remove_fd_good _ _ hg
        · have hh := (ih _ ?_ ?_).2 s' h
          · exact hh
          · simp
            omega
          · exact hg
      · injection h with h
        subst h
        exact hg

/-- On a good state, a winner produced by the poll loop is nonnegative and
stored in a live slot of a still-good state. -/
theorem pollLoop_good : ∀ (script : List PollStep) (s : CState),
    goodState s →
    ∀ fd s', pollLoop script s = .win fd s' →
      goodState s' ∧ 0 ≤ fd ∧
      ∃ j : Fin 2, (j : Nat) < s'.num ∧ s'.pfdFd j = fd := by
  intro script
  induction script with
  | nil =>
    intro s hg fd s' h
    simp only [pollLoop] at h
    split at h <;> simp at h
  | cons step rest ih =>
    intro s hg fd s' h
    simp only [pollLoop] at h
    split at h
    · simp at h
    · split at h
      · simp at h
      · split at h
        · next s2 heq =>
          injection h with h1 h2
          subst h1
          subst h2
          have hh := (pollInner_good _ _ _ _ ?_ ?_).1 _ _ heq
          · exact hh
          · simp
          · exact hg
        · simp at h
        · next s2 heq =>
          have hg2 : goodState s2 := by
            have hh := (pollInner_good _ _ _ _ ?_ ?_).2 _ heq
            · exact hh
            · simp
            · exact hg
          exact ih s2 hg2 fd s' h

/-- `addCandidate` preserves the invariant and leaves `i`, `pollCalls`
and `connectCalls` unchanged. -/
theorem addCandidate_good (env : Env) (s : CState) (fam : Family)
    (a : Addrinfo) (sl : Nat) (hg : goodState s) :
    goodState (addCandidate env s fam a sl) ∧
    (addCandidate env s fam a sl).i = s.i ∧
    (addCandidate env s fam a sl).pollCalls = s.pollCalls ∧
    (addCandidate env s fam a sl).connectCalls = s.connectCalls := by
  simp only [addCandidate]
  split
  · next h =>
    cases hs : env.socketRes fam with
    | some fd =>
      refine ⟨⟨by simp; omega, fun j hj => ?_⟩, by simp, by simp, by simp⟩
      simp only at hj
      rcases eq_or_ne j ⟨s.num, h⟩ with rfl | hne
      · simp [Function.update_same]
      · have hv : (j : Nat) ≠ s.num := fun hv => hne (Fin.ext hv)
        simp only [Function.update_noteq hne]
        exact hg.2 j (by omega)
    | none =>
      refine ⟨⟨by simp [hg.1], fun j hj => ?_⟩, by simp, by simp, by simp⟩
      simp only at hj
      have hv : (j : Nat) ≠ s.num := by omega
      have hne : j ≠ ⟨s.num, h⟩ := fun he => hv (congrArg Fin.val he)
      simp only [Function.update_noteq hne]
      exact hg.2 j (by omega)
  · exact ⟨hg, rfl, rfl, rfl⟩

/-- The state after candidate selection and socket creation is good, still
has `i = 0`, no poll calls and no connect calls recorded. -/
theorem preparedState_good (env : Env) (l : List Addrinfo) :
    goodState (preparedState env l) ∧ (preparedState env l).i = 0 ∧
    (preparedState env l).pollCalls = 0 ∧
    (preparedState env l).connectCalls = [] := by
  have hinit : goodState (initState env) :=
    ⟨by simp [initState], fun j hj => by simp [initState] at hj⟩
  unfold preparedState
  cases h6 : firstFam .inet6 l with
  | none =>
    cases h4 : firstFam .inet l with
    | none => exact ⟨hinit, rfl, rfl, rfl⟩
    | some a4 =>
      have hh := addCandidate_good env (initState env) .inet a4
        sizeof_sockaddr_in hinit
      exact ⟨hh.1, hh.2.1, hh.2.2.1, hh.2.2.2⟩
  | some a6 =>
    have hh6 := addCandidate_good env (initState env) .inet6 a6
      sizeof_sockaddr_in6 hinit
    cases h4 : firstFam .inet l with
    | none => exact ⟨hh6.1, hh6.2.1, hh6.2.2.1, hh6.2.2.2⟩
    | some a4 =>
      have hh4 := addCandidate_good env _ .inet a4 sizeof_sockaddr_in hh6.1
      exact ⟨hh4.1, hh4.2.1.trans hh6.2.1,
        hh4.2.2.1.trans hh6.2.2.1, hh4.2.2.2.trans hh6.2.2.2⟩

/-- Unfolding the slot list at a live index: the candidate at slot `i`
followed by the slots from `i + 1`. -/
theorem slotsOf_cons (i num : Nat) (ad : Fin 2 → Addrinfo)
    (hi : i < num) (h2 : num ≤ 2) (hlt : i < 2) :
    slotsOf i num ad = ad ⟨i, hlt⟩ :: slotsOf (i + 1) num ad := by
  have h0 : i = 0 ∨ i = 1 := by omega
  have hn : num = 1 ∨ num = 2 := by omega
  rcases h0 with h0 | h0 <;> rcases hn with hn | hn <;>
    first
      | omega
      | simp [slotsOf, h0, hn, List.range_succ]

/-- Removing the entry at index `i` (shift down, one fewer live entry)
leaves exactly the slots from `i + 1` of the unremoved array. -/
theorem slotsOf_remove (i num : Nat) (ad : Fin 2 → Addrinfo)
    (hi : i < num) (h2 : num ≤ 2) :
    slotsOf i (num - 1) (shiftDown ad num i) = slotsOf (i + 1) num ad := by
  have h0 : i = 0 ∨ i = 1 := by omega
  have hn : num = 1 ∨ num = 2 := by omega
  rcases h0 with h0 | h0 <;> rcases hn with hn | hn <;>
    first
      | omega
      | simp [slotsOf, shiftDown, h0, hn, List.range_succ]

/-- Entered with `gas + i ≤ num` and at most two live entries, the setup
loop extends the recorded connect calls by a block whose targets form a
subsequence of the candidates held in the slots still to be visited. -/
theorem setupLoop_targets (env : Env) : ∀ (gas : Nat) (s : CState),
    gas + s.i ≤ s.num → s.num ≤ 2 →
    (∀ fd s', setupLoop env gas s = .win fd s' →
      ∃ ext, s'.connectCalls = s.connectCalls ++ ext ∧
        List.Sublist (connTargets ext) (slotsFrom s)) ∧
    (∀ s', setupLoop env gas s = .done s' →
      ∃ ext, s'.connectCalls = s.connectCalls ++ ext ∧
        List.Sublist (connTargets ext) (slotsFrom s)) := by
  intro gas
  induction gas with
  | zero =>
    intro s hle h2
    refine ⟨fun fd s' h => ?_, fun s' h => ?_⟩
    · simp [setupLoop] at h
    · simp only [setupLoop] at h
      injection h with h
      subst h
      exact ⟨[], by simp, List.nil_sublist _⟩
  | succ gas ih =>
    intro s hle h2
    have hi : s.i < s.num := by omega
    refine ⟨fun fd s' h => ?_, fun s' h => ?_⟩
    · simp only [setupLoop] at h
      split at h
      · next hlt =>
        have hcons : slotsFrom s = s.addr ⟨s.i, hlt⟩ ::
            slotsOf (s.i + 1) s.num s.addr :=
          slotsOf_cons s.i s.num s.addr hi h2 hlt
        split at h
        · split at h
          · injection h with h1 h2'
            subst h1
            subst h2'
            refine ⟨[(s.pfdFd ⟨s.i, hlt⟩, s.addr ⟨s.i, hlt⟩,
              s.slen ⟨s.i, hlt⟩)], rfl, ?_⟩
            rw [hcons]
            exact (List.nil_sublist _).cons₂ _
          · split at h
            · have hh := (ih _ ?_ ?_).1 fd s' h
              · obtain ⟨ext, hcc, hsub⟩ := hh
                refine ⟨(s.pfdFd ⟨s.i, hlt⟩, s.addr ⟨s.i, hlt⟩,
                  s.slen ⟨s.i, hlt⟩) :: ext, ?_, ?_⟩
                · rw [hcc]
                  simp
                · rw [hcons]
                  have hsub2 : List.Sublist (connTargets ext)
                      (slotsOf (s.i + 1) s.num s.addr) := hsub
                  exact hsub2.cons₂ _
              · simp
                omega
              · exact h2
            · have hh := (ih _ ?_ ?_).1 fd s' h
              · obtain ⟨ext, hcc, hsub⟩ := hh
                refine ⟨(s.pfdFd ⟨s.i, hlt⟩, s.addr ⟨s.i, hlt⟩,
                  s.slen ⟨s.i, hlt⟩) :: ext, ?_, ?_⟩
                · rw [hcc]
                  simp [remove_fd]
                · rw [hcons]
                  have hsub2 : List.Sublist (connTargets ext)
                      (slotsOf s.i (s.num - 1) (shiftDown s.addr s.num s.i)) :=
                    hsub
                  rw [slotsOf_remove s.i s.num s.addr hi h2] at hsub2
                  exact hsub2.cons₂ _
              · simp [remove_fd]
                omega
              · simp [remove_fd]
                omega
        · have hh := (ih _ ?_ ?_).1 fd s' h
          · obtain ⟨ext, hcc, hsub⟩ := hh
            refine ⟨ext, by rw [hcc]; simp [remove_fd], ?_⟩
            have hsub2 : List.Sublist (connTargets ext)
                (slotsOf s.i (s.num - 1) (shiftDown s.addr s.num s.i)) := hsub
            rw [slotsOf_remove s.i s.num s.addr hi h2] at hsub2
            rw [hcons]
            exact hsub2.cons _
          · simp [remove_fd]
            omega
          · simp [remove_fd]
            omega
      · simp at h
    · simp only [setupLoop] at h
      split at h
      · next hlt =>
        have hcons : slotsFrom s = s.addr ⟨s.i, hlt⟩ ::
            slotsOf (s.i + 1) s.num s.addr :=
          slotsOf_cons s.i s.num s.addr hi h2 hlt
        split at h
        · split at h
          · simp at h
          · split at h
            · have hh := (ih _ ?_ ?_).2 s' h
              · obtain ⟨ext, hcc, hsub⟩ := hh
                refine ⟨(s.pfdFd ⟨s.i, hlt⟩, s.addr ⟨s.i, hlt⟩,
                  s.slen ⟨s.i, hlt⟩) :: ext, ?_, ?_⟩
                · rw [hcc]
                  simp
                · rw [hcons]
                  have hsub2 : List.Sublist (connTargets ext)
                      (slotsOf (s.i + 1) s.num s.addr) := hsub
                  exact hsub2.cons₂ _
              · simp
                omega
              · exact h2
            · have hh := (ih _ ?_ ?_).2 s' h
              · obtain ⟨ext, hcc, hsub⟩ := hh
                refine ⟨(s.pfdFd ⟨s.i, hlt⟩, s.addr ⟨s.i, hlt⟩,
                  s.slen ⟨s.i, hlt⟩) :: ext, ?_, ?_⟩
                · rw [hcc]
                  simp [remove_fd]
                · rw [hcons]
                  have hsub2 : List.Sublist (connTargets ext)
                      (slotsOf s.i (s.num - 1) (shiftDown s.addr s.num s.i)) :=
                    hsub
                  rw [slotsOf_remove s.i s.num s.addr hi h2] at hsub2
                  exact hsub2.cons₂ _
              · simp [remove_fd]
                omega
              · simp [remove_fd]
                omega
        · have hh := (ih _ ?_ ?_).2 s' h
          · obtain ⟨ext, hcc, hsub⟩ := hh
            refine ⟨ext, by rw [hcc]; simp [remove_fd], ?_⟩
            have hsub2 : List.Sublist (connTargets ext)
                (slotsOf s.i (s.num - 1) (shiftDown s.addr s.num s.i)) := hsub
            rw [slotsOf_remove s.i s.num s.addr hi h2] at hsub2
            rw [hcons]
            exact hsub2.cons _
          · simp [remove_fd]
            omega
          · simp [remove_fd]
            omega
      · injection h with h
        subst h
        exact ⟨[], by simp, List.nil_sublist _⟩

/-- After candidate selection and socket creation: the recorded socket
calls are exactly the spec's order (IPv6 first, first occurrence of each
family, independent of socket success), and the live slots hold a
subsequence of the spec's candidate pair. -/
theorem preparedState_calls (env : Env) (l : List Addrinfo) :
    (preparedState env l).socketCalls = racerSocketOrderSpec l ∧
    List.Sublist (slotsFrom (preparedState env l))
      (racerCandidatesSpec l) := by
  unfold preparedState racerSocketOrderSpec racerCandidatesSpec
  cases h6 : firstFam .inet6 l with
  | none =>
    cases h4 : firstFam .inet l with
    | none =>
      exact ⟨by simp [initState], by
        simp [initState, slotsFrom, slotsOf, List.range_succ]⟩
    | some a4 =>
      cases hs4 : env.socketRes .inet with
      | some fdv =>
        refine ⟨by simp [addCandidate, initState, hs4], ?_⟩
        simp [addCandidate, initState, hs4, slotsFrom, slotsOf,
          List.range_succ, Function.update]
      | none =>
        refine ⟨by simp [addCandidate, initState, hs4], ?_⟩
        simp [addCandidate, initState, hs4, slotsFrom, slotsOf,
          List.range_succ, Function.update]
  | some a6 =>
    cases hs6 : env.socketRes .inet6 with
    | some fdv6 =>
      cases h4 : firstFam .inet l with
      | none =>
        refine ⟨by simp [addCandidate, initState, hs6], ?_⟩
        simp [addCandidate, initState, hs6, slotsFrom, slotsOf,
          List.range_succ, Function.update]
      | some a4 =>
        cases hs4 : env.socketRes .inet with
        | some fdv4 =>
          refine ⟨by simp [addCandidate, initState, hs6, hs4], ?_⟩
          simp [addCandidate, initState, hs6, hs4, slotsFrom, slotsOf,
            List.range_succ, Function.update]
        | none =>
          refine ⟨by simp [addCandidate, initState, hs6, hs4], ?_⟩
          simp [addCandidate, initState, hs6, hs4, slotsFrom, slotsOf,
            List.range_succ, Function.update]
    | none =>
      cases h4 : firstFam .inet l with
      | none =>
        refine ⟨by simp [addCandidate, initState, hs6], ?_⟩
        simp [addCandidate, initState, hs6, slotsFrom, slotsOf,
          List.range_succ, Function.update]
      | some a4 =>
        cases hs4 : env.socketRes .inet with
        | some fdv4 =>
          refine ⟨by simp [addCandidate, initState, hs6, hs4], ?_⟩
          simp [addCandidate, initState, hs6, hs4, slotsFrom, slotsOf,
            List.range_succ, Function.update]
        | none =>
          refine ⟨by simp [addCandidate, initState, hs6, hs4], ?_⟩
          simp [addCandidate, initState, hs6, hs4, slotsFrom, slotsOf,
            List.range_succ, Function.update]

/-- Both branches of the `got_one:` epilogue copy the call traces of the
state they are given. -/
theorem finishGotOne_traces (env : Env) (fd : Int) (t : CState) :
    (finishGotOne env fd t).socketCalls = t.socketCalls ∧
    (finishGotOne env fd t).connectCalls = t.connectCalls := by
  unfold finishGotOne finishOut
  split <;> exact ⟨rfl, rfl⟩

/-- The returned descriptor, the created list and the closed list of
`make_listen_fd` do not depend on the ambient errno it is entered with
(only the resulting errno does). -/
theorem make_listen_fd_errno_indep (env : BEnv) (e1 e2 : Nat)
    (a : Addrinfo) :
    (make_listen_fd env e1 a).ret = (make_listen_fd env e2 a).ret ∧
    (make_listen_fd env e1 a).created = (make_listen_fd env e2 a).created ∧
    (make_listen_fd env e1 a).closed = (make_listen_fd env e2 a).closed := by
  cases hs : env.socketRes a with
  | none => simp [make_listen_fd, hs]
  | some fd =>
    simp only [make_listen_fd, hs]
    cases hbr : env.bindRes fd <;> cases hsl : should_listen a <;>
      cases hlr : env.listenRes fd <;> simp [hbr, hsl, hlr]

/-- C1: the claim states that every descriptor created by `net_connect`
that is not the returned winner is closed before return, and that
descriptors dropped mid-scan are closed at the moment they are dropped.
This run refutes it: with candidates `[cand6, cand4]`, the IPv6 descriptor
5 is created, its connect is refused (errno 111) so it is dropped by
`remove_fd` — which contains no `close` — the IPv4 descriptor 3 wins, and
the run ends with `created = [5, 3]`, winner 3, and an empty `closed`
trace: descriptor 5 is leaked. -/
theorem C1_remove_fd_leaks_dropped_descriptor :
    (net_connect envC1 [] [cand6, cand4]).map ConnOutcome.created =
      some [5, 3] ∧
    (net_connect envC1 [] [cand6, cand4]).map ConnOutcome.sockfd = some 3 ∧
    (net_connect envC1 [] [cand6, cand4]).map ConnOutcome.closed =
      some [] := by
  decide

/-- C2: the claim states that when `poll` itself fails with candidates
pending, `net_connect` closes all pending descriptors and returns `-1`.
This run refutes it: one pending IPv4 candidate (descriptor 3), the single
`poll` call fails (errno 4), and — because the source has no jump to `out:`
after the `while` loop — control falls through into `got_one:` with
`i == num == 1`, reads the uninitialised `pfd[1].fd` (junk value 91),
successfully switches it to blocking mode, and returns 91: a value that is
not `-1` and was never created by the call. -/
theorem C2_poll_failure_falls_through_to_got_one :
    (net_connect envC2 [.fail 4] [cand4]).map ConnOutcome.pollCalls =
      some 1 ∧
    (net_connect envC2 [.fail 4] [cand4]).map ConnOutcome.sockfd =
      some 91 ∧
    (net_connect envC2 [.fail 4] [cand4]).map ConnOutcome.sockfd ≠
      some (-1) ∧
    (net_connect envC2 [.fail 4] [cand4]).map ConnOutcome.created =
      some [3] := by
  decide

/-- C3: the claim states that every `pfd`/`addr`/`slen` access of the
candidate-setup loop stays within the live entries, in particular the
`pfd[i].events` assignment after a non-`EINPROGRESS` connect failure at
index 0.  This run refutes it: the lone IPv4 candidate's connect is refused
at index 0, `remove_fd(..., i--)` wraps the unsigned `i` to
`2^32 - 1 = 4294967295`, and the fall-through `pfd[i].events = POLLOUT`
writes at index 4294967295 while 0 entries are live (array capacity 2):
an out-of-bounds write. -/
theorem C3_events_write_out_of_bounds :
    (net_connect envC3 [] [cand4]).map ConnOutcome.eventsWrites =
      some [(4294967295, 0)] ∧
    ¬ (4294967295 < 2) := by
  decide

/-- C4: the claim states that on an empty candidate sequence `net_connect`
fails immediately with `-1` and creates no socket.  This run refutes the
return value: no socket call is made, but — again via the missing jump to
`out:` — control falls through into `got_one:` with `i == num == 0`, reads
the uninitialised `pfd[0].fd` (junk value 90), switches it to blocking
mode, and returns 90 instead of `-1`. -/
theorem C4_empty_list_returns_junk :
    (net_connect envC4 [] []).map ConnOutcome.socketCalls = some [] ∧
    (net_connect envC4 [] []).map ConnOutcome.created = some [] ∧
    (net_connect envC4 [] []).map ConnOutcome.sockfd = some 90 ∧
    (net_connect envC4 [] []).map ConnOutcome.sockfd ≠ some (-1) := by
  decide

/-- C5 counterexample: the claim states that every step failing after
socket creation — *including enabling the address-reuse option* — closes
the socket and propagates failure.  Here `setsockopt(SO_REUSEADDR)` on
descriptor 3 fails, yet `make_listen_fd` proceeds, returns descriptor 3 as
a success and closes nothing: the result of the option set is never
checked by the source. -/
theorem C5_setsockopt_failure_ignored :
    benvC5.setsockoptRes 3 = false ∧
    (make_listen_fd benvC5 0 cand4).setsockoptCalls = [3] ∧
    (make_listen_fd benvC5 0 cand4).ret = 3 ∧
    (make_listen_fd benvC5 0 cand4).closed = [] := by
  decide

/-- C5 (amended): in `make_listen_fd`, a failing `socket` propagates its
errno with nothing created; a failing `bind`, and a failing `listen` on a
connection-oriented candidate, close the socket and return `-1` preserving
the originating errno; the result of enabling the address-reuse option is
ignored — it never changes the returned descriptor or what is closed. -/
theorem C5_amended_fail_paths (env : BEnv) (e0 : Nat) (a : Addrinfo) :
    (env.socketRes a = none →
      (make_listen_fd env e0 a).ret = -1 ∧
      (make_listen_fd env e0 a).errno = env.socketErrno a ∧
      (make_listen_fd env e0 a).created = [] ∧
      (make_listen_fd env e0 a).closed = []) ∧
    (∀ fd, env.socketRes a = some fd →
      (env.bindRes fd = false →
        (make_listen_fd env e0 a).ret = -1 ∧
        (make_listen_fd env e0 a).errno = env.bindErrno fd ∧
        (make_listen_fd env e0 a).closed = [fd]) ∧
      (env.bindRes fd = true → should_listen a = true →
        env.listenRes fd = false →
        (make_listen_fd env e0 a).ret = -1 ∧
        (make_listen_fd env e0 a).errno = env.listenErrno fd ∧
        (make_listen_fd env e0 a).closed = [fd]) ∧
      ((make_listen_fd env e0 a).ret =
        (make_listen_fd { env with setsockoptRes := fun _ => true } e0 a).ret ∧
       (make_listen_fd env e0 a).closed =
        (make_listen_fd { env with setsockoptRes := fun _ => true } e0 a).closed)) := by
  refine ⟨fun h => ?_, fun fd hfd => ⟨fun hb => ?_, fun hb hl hls => ?_, ?_⟩⟩
  · simp [make_listen_fd, h]
  · simp [make_listen_fd, hfd, hb]
  · simp [make_listen_fd, hfd, hb, hl, hls]
  · simp only [make_listen_fd, hfd]
    cases hset : env.setsockoptRes fd <;>
      cases hbr : env.bindRes fd <;>
        cases hsl : should_listen a <;>
          cases hlr : env.listenRes fd <;>
            simp [hset, hbr, hsl, hlr]

/-- Witness for the amended C5: with `benvW5` (where `bind` fails with
errno 98), `make_listen_fd` on the IPv4 candidate returns `-1`, reports
errno 98, and closes the descriptor 3 it had created. -/
theorem C5_amended_witness :
    (make_listen_fd benvW5 0 cand4).ret = -1 ∧
    (make_listen_fd benvW5 0 cand4).errno = benvW5.bindErrno 3 ∧
    (make_listen_fd benvW5 0 cand4).closed = [3] :=
  ((C5_amended_fail_paths benvW5 0 cand4).2 3 rfl).1 rfl

/-- C10: `net_bind` reads its first candidate before any emptiness check,
so a nonempty sequence is a precondition (the empty sequence, i.e. a NULL
`addrinfo`, is the undefined dereference modelled by `none`); under that
precondition the whole result depends only on the first two entries of the
sequence. -/
theorem C10_net_bind_reads_first_two_only :
    (∀ (env : BEnv) (e0 : Nat), net_bind env e0 [] = none) ∧
    (∀ (env : BEnv) (e0 : Nat) (l1 l2 : List Addrinfo), l1 ≠ [] →
      l1.take 2 = l2.take 2 → net_bind env e0 l1 = net_bind env e0 l2) := by
  refine ⟨fun env e0 => rfl, fun env e0 l1 l2 h1 ht => ?_⟩
  match l1, l2 with
  | [], _ => exact absurd rfl h1
  | a :: r1, [] => simp [List.take] at ht
  | a :: r1, b :: r2 =>
    simp only [List.take] at ht
    obtain ⟨rfl, ht⟩ := List.cons.inj ht
    have hh : r1.head? = r2.head? := by
      cases r1 with
      | nil =>
        cases r2 with
        | nil => rfl
        | cons d t2 => simp at ht
      | cons c t1 =>
        cases r2 with
        | nil => simp at ht
        | cons d t2 =>
          simp at ht
          simp [ht]
    simp [net_bind, hh]

/-- Witness for C10: the empty list yields `none`, and two sequences
agreeing on their first two entries yield identical results. -/
theorem C10_witness :
    net_bind benvBase 0 [] = none ∧
    net_bind benvBase 0 [cand6, cand4] =
      net_bind benvBase 0 [cand6, cand4, candO] :=
  ⟨C10_net_bind_reads_first_two_only.1 benvBase 0,
   C10_net_bind_reads_first_two_only.2 benvBase 0 [cand6, cand4]
     [cand6, cand4, candO] (by decide) rfl⟩

/-- C8: for every nonempty candidate sequence, `net_bind` attempts the
IPv6 slot before the IPv4 slot (`factoryCalls` lists the IPv6 candidate
first), returns `-1` exactly when no descriptor was produced, otherwise
returns the count (1 or 2) of descriptors produced; and when both slots
are occupied and the IPv6 factory fails while the IPv4 one succeeds, the
per-family failure is non-fatal: the call returns count 1 with the IPv4
descriptor. -/
theorem C8_net_bind_order_count_nonfatal (env : BEnv) (e0 : Nat)
    (a : Addrinfo) (rest : List Addrinfo) (o : BOutcome)
    (h : net_bind env e0 (a :: rest) = some o) :
    o.factoryCalls = (classify2 a rest.head?).1.toList ++
      (classify2 a rest.head?).2.toList ∧
    (o.ret = -1 ↔ o.fds = []) ∧
    (o.fds ≠ [] → o.ret = (o.fds.length : Int) ∧ o.fds.length ≤ 2) ∧
    (∀ a6 a4, classify2 a rest.head? = (some a6, some a4) →
      (make_listen_fd env e0 a6).ret < 0 →
      0 ≤ (make_listen_fd env e0 a4).ret →
      o.ret = 1 ∧ o.fds = [(make_listen_fd env e0 a4).ret]) := by
  simp only [net_bind] at h
  rcases hc : classify2 a rest.head? with ⟨v6, v4⟩
  rw [hc] at h
  cases v6 with
  | none =>
    cases v4 with
    | none =>
      simp only [bindSlot] at h
      injection h with h
      subst h
      simp [hc]
    | some a4 =>
      simp only [bindSlot] at h
      by_cases h4 : 0 ≤ (make_listen_fd env e0 a4).ret
      · rw [if_pos h4] at h
        injection h with h
        subst h
        simp [hc]
      · rw [if_neg h4] at h
        injection h with h
        subst h
        simp [hc]
  | some a6 =>
    cases v4 with
    | none =>
      simp only [bindSlot] at h
      by_cases h6 : 0 ≤ (make_listen_fd env e0 a6).ret
      · rw [if_pos h6] at h
        injection h with h
        subst h
        simp [hc]
      · rw [if_neg h6] at h
        injection h with h
        subst h
        simp [hc]
    | some a4 =>
      simp only [bindSlot] at h
      rw [(make_listen_fd_errno_indep env
        ((make_listen_fd env e0 a6).errno) e0 a4).1] at h
      by_cases h6 : 0 ≤ (make_listen_fd env e0 a6).ret
      · rw [if_pos h6] at h
        by_cases h4 : 0 ≤ (make_listen_fd env e0 a4).ret
        · rw [if_pos h4] at h
          injection h with h
          subst h
          refine ⟨by simp [hc], by simp, by simp, ?_⟩
          intro a6' a4' hc' h6' h4'
          injection hc' with x y
          obtain rfl := Option.some.inj x
          obtain rfl := Option.some.inj y
          omega
        · rw [if_neg h4] at h
          injection h with h
          subst h
          refine ⟨by simp [hc], by simp, by simp, ?_⟩
          intro a6' a4' hc' h6' h4'
          injection hc' with x y
          obtain rfl := Option.some.inj x
          obtain rfl := Option.some.inj y
          omega
      · rw [if_neg h6] at h
        by_cases h4 : 0 ≤ (make_listen_fd env e0 a4).ret
        · rw [if_pos h4] at h
          injection h with h
          subst h
          refine ⟨by simp [hc], by simp, by simp, ?_⟩
          intro a6' a4' hc' h6' h4'
          injection hc' with x y
          obtain rfl := Option.some.inj x
          obtain rfl := Option.some.inj y
          simp
        · rw [if_neg h4] at h
          injection h with h
          subst h
          refine ⟨by simp [hc], by simp, by simp, ?_⟩
          intro a6' a4' hc' h6' h4'
          injection hc' with x y
          obtain rfl := Option.some.inj x
          obtain rfl := Option.some.inj y
          omega

/-- Witness for C8: in the dual-stack scenario `benvW8` (IPv6 bind fails,
IPv4 succeeds) on `[cand6, cand4]`, the binder returns count 1 with the
IPv4 descriptor. -/
theorem C8_witness :
    (outW8.ret = -1 ↔ outW8.fds = []) ∧
    (outW8.ret = 1 ∧ outW8.fds = [(make_listen_fd benvW8 0 cand4).ret]) :=
  ⟨(C8_net_bind_order_count_nonfatal benvW8 0 cand6 [cand4] outW8 rfl).2.1,
   (C8_net_bind_order_count_nonfatal benvW8 0 cand6 [cand4] outW8 rfl).2.2.2
     cand6 cand4 rfl (by decide) (by decide)⟩

/-- C9: whenever the race finds a winning candidate (a `goto got_one` with
descriptor `fd`) but switching that descriptor back to blocking mode
fails, `net_connect` returns the invalid-handle sentinel `-1` and the
winning descriptor is among the descriptors closed by the epilogue, so a
non-blocking descriptor is never handed to the caller. -/
theorem C9_restore_failure_fails_race (env : Env) (script : List PollStep)
    (l : List Addrinfo) (fd : Int) (s : CState)
    (hwin : raceExit env script l = .win fd s)
    (hres : env.nbFalse fd = false) :
    ∃ o, net_connect env script l = some o ∧ o.sockfd = -1 ∧
      fd ∈ o.closed := by
  have hg := (preparedState_good env l).1
  have hi0 := (preparedState_good env l).2.1
  have hlive : goodState s ∧ 0 ≤ fd ∧
      ∃ j : Fin 2, (j : Nat) < s.num ∧ s.pfdFd j = fd := by
    unfold raceExit at hwin
    cases hs : setupLoop env (preparedState env l).num (preparedState env l) with
    | win fd0 s0 =>
      rw [hs] at hwin
      injection hwin with h1 h2
      subst h1
      subst h2
      exact (setupLoop_good env _ _ (by rw [hi0]; omega) hg).1 _ _ hs
    | done s0 =>
      rw [hs] at hwin
      have hg0 : goodState s0 :=
        (setupLoop_good env _ _ (by rw [hi0]; omega) hg).2 _ hs
      exact pollLoop_good script s0 hg0 fd s hwin
  obtain ⟨hgs, hfd0, j, hjn, hjv⟩ := hlive
  refine ⟨finishGotOne env fd s, by simp only [net_connect, hwin], ?_, ?_⟩
  · simp [finishGotOne, hres, finishOut]
  · have hmem : fd ∈ livePfds { s with errno := env.nbFalseErrno fd } := by
      simp only [livePfds, List.mem_filterMap, List.mem_range]
      refine ⟨(j : Nat), hjn, ?_⟩
      rw [dif_pos j.isLt]
      simp [Fin.eta, hjv]
    simp only [finishGotOne, hres, Bool.false_eq_true, if_false, finishOut,
      List.mem_filter]
    refine ⟨hmem, ?_⟩
    simp
    omega

/-- Witness for C9: with `envW9` (connect succeeds synchronously on
descriptor 3, mode restore fails), the race on one IPv4 candidate returns
`-1` and closes descriptor 3. -/
theorem C9_witness :
    ∃ o, net_connect envW9 [] [cand4] = some o ∧ o.sockfd = -1 ∧
      (3 : Int) ∈ o.closed :=
  C9_restore_failure_fails_race envW9 [] [cand4] 3 _ rfl rfl

/-- C6: whenever some connect attempt of the candidate-setup loop succeeds
synchronously (the loop exits by `goto got_one` with descriptor `fd`), and
restoring blocking mode on `fd` succeeds, `net_connect` returns exactly
that candidate's descriptor and `poll` is never invoked. -/
theorem C6_sync_connect_skips_poll (env : Env) (script : List PollStep)
    (l : List Addrinfo) (fd : Int) (s : CState)
    (hwin : setupLoop env (preparedState env l).num (preparedState env l) =
      .win fd s)
    (hres : env.nbFalse fd = true) :
    (net_connect env script l).map ConnOutcome.sockfd = some fd ∧
    (net_connect env script l).map ConnOutcome.pollCalls = some 0 := by
  have hnc : net_connect env script l = some (finishGotOne env fd s) := by
    simp only [net_connect, raceExit, hwin]
  have hpc : s.pollCalls = (preparedState env l).pollCalls :=
    ((setupLoop_trace env _ _).1 fd s hwin).1
  have hp0 : (preparedState env l).pollCalls = 0 :=
    (preparedState_good env l).2.2.1
  rw [hnc]
  simp [finishGotOne, hres, finishOut]
  exact hpc.trans hp0

/-- Witness for C6: with `envW` (synchronous connect success on
descriptor 3), the race on one IPv4 candidate returns descriptor 3 with
zero `poll` invocations. -/
theorem C6_witness :
    (net_connect envW [] [cand4]).map ConnOutcome.sockfd = some 3 ∧
    (net_connect envW [] [cand4]).map ConnOutcome.pollCalls = some 0 :=
  C6_sync_connect_skips_poll envW [] [cand4] 3 _ rfl rfl

/-- C7: on every terminating run, `net_connect` issues exactly one socket
call per address family present — for the first IPv6 occurrence first,
then the first IPv4 occurrence — and the candidates it attempts to connect
form a subsequence of that pair (so at most one candidate per family, the
first of each, IPv6 created and connected before IPv4). -/
theorem C7_family_selection_and_order (env : Env) (script : List PollStep)
    (l : List Addrinfo) (o : ConnOutcome)
    (h : net_connect env script l = some o) :
    o.socketCalls = racerSocketOrderSpec l ∧
    List.Sublist (connTargets o.connectCalls) (racerCandidatesSpec l) := by
  have hg := preparedState_good env l
  have h2 : (preparedState env l).num ≤ 2 := hg.1.1
  have hi0 : (preparedState env l).i = 0 := hg.2.1
  have hcc0 : (preparedState env l).connectCalls = [] := hg.2.2.2
  have hpc := preparedState_calls env l
  cases hs : setupLoop env (preparedState env l).num (preparedState env l) with
  | win fd s1 =>
    have hnc : net_connect env script l = some (finishGotOne env fd s1) := by
      simp only [net_connect, raceExit, hs]
    rw [hnc] at h
    injection h with h
    subst h
    have htr := (setupLoop_trace env _ _).1 _ _ hs
    obtain ⟨ext, hcc, hsub⟩ :=
      (setupLoop_targets env _ _ (by rw [hi0]; omega) h2).1 _ _ hs
    rw [hcc0, List.nil_append] at hcc
    have hft := finishGotOne_traces env fd s1
    constructor
    · rw [hft.1, htr.2.1, hpc.1]
    · rw [hft.2, hcc]
      exact hsub.trans hpc.2
  | done s1 =>
    have htr := (setupLoop_trace env _ _).2 _ hs
    obtain ⟨ext, hcc, hsub⟩ :=
      (setupLoop_targets env _ _ (by rw [hi0]; omega) h2).2 _ hs
    rw [hcc0, List.nil_append] at hcc
    cases hp : pollLoop script s1 with
    | win fd s2 =>
      have hnc : net_connect env script l = some (finishGotOne env fd s2) := by
        simp only [net_connect, raceExit, hs, hp]
      rw [hnc] at h
      injection h with h
      subst h
      have hpl := (pollLoop_trace script s1).1 _ _ hp
      have hft := finishGotOne_traces env fd s2
      constructor
      · rw [hft.1, hpl.1, htr.2.1, hpc.1]
      · rw [hft.2, hpl.2.2, hcc]
        exact hsub.trans hpc.2
    | abortOut s2 =>
      have hnc : net_connect env script l = some (finishOut (-1) s2) := by
        simp only [net_connect, raceExit, hs, hp]
      rw [hnc] at h
      injection h with h
      subst h
      have hpl := (pollLoop_trace script s1).2.1 _ hp
      constructor
      · show s2.socketCalls = _
        rw [hpl.1, htr.2.1, hpc.1]
      · show List.Sublist (connTargets s2.connectCalls) _
        rw [hpl.2.2, hcc]
        exact hsub.trans hpc.2
    | fellThrough s2 =>
      have hnc : net_connect env script l =
          some (finishGotOne env (pfdAt env s2 s2.i) s2) := by
        simp only [net_connect, raceExit, hs, hp]
      rw [hnc] at h
      injection h with h
      subst h
      have hpl := (pollLoop_trace script s1).2.2 _ hp
      have hft := finishGotOne_traces env (pfdAt env s2 s2.i) s2
      constructor
      · rw [hft.1, hpl.1, htr.2.1, hpc.1]
      · rw [hft.2, hpl.2.2, hcc]
        exact hsub.trans hpc.2
    | hang s2 =>
      have hnc : net_connect env script l = none := by
        simp only [net_connect, raceExit, hs, hp]
      rw [hnc] at h
      simp at h

/-- Witness for C7: on the single-IPv4-candidate run with `envW`, the
socket-call trace is the spec order and the single connect target is the
IPv4 candidate. -/
theorem C7_witness :
    outW7.socketCalls = racerSocketOrderSpec [cand4] ∧
    List.Sublist (connTargets outW7.connectCalls)
      (racerCandidatesSpec [cand4]) :=
  C7_family_selection_and_order envW [] [cand4] outW7 rfl

end Net
